import Mathlib

/-!
Shallow embedding of the lc-crypto repository's digest, secrecy and
comparison primitives, together with theorems settling the specification
claims against the code.

Machine integers are modelled as `Nat` with explicit reduction `% 2 ^ w`
at the operations where the source wraps.  Byte strings are `List Nat`
(each element a byte value).  Rust panics (assertion failures,
`copy_from_slice` length mismatches, `try_into().unwrap()`) are modelled
by the `PResult` type.
-/

set_option maxRecDepth 100000

namespace LcCrypto

/-- Result of a computation that may hit a Rust panic (assertion failure,
slice-length mismatch, overflowing push, ...). -/
inductive PResult (α : Type) where
  | ok (val : α)
  | panicked
  deriving DecidableEq, Repr

def PResult.map {α β : Type} (f : α → β) : PResult α → PResult β
  | .ok v => .ok (f v)
  | .panicked => .panicked

def PResult.bind {α β : Type} : PResult α → (α → PResult β) → PResult β
  | .ok v, f => f v
  | .panicked, _ => .panicked

instance : Monad PResult where
  pure := PResult.ok
  bind := PResult.bind
  map := PResult.map

/-- `w`-bit rotate right (`u32::rotate_right` / `u64::rotate_right`) for a
word `x < 2 ^ w`. -/
def rotr (w n x : Nat) : Nat := ((x >>> n) ||| (x <<< (w - n))) % 2 ^ w

/-- `w`-bit rotate left (`rotate_left`) for a word `x < 2 ^ w`. -/
def rotl (w n x : Nat) : Nat := ((x <<< n) ||| (x >>> (w - n))) % 2 ^ w

/-- `w`-bit bitwise complement (`!x` on a `uw` value). -/
def bnot (w x : Nat) : Nat := x ^^^ (2 ^ w - 1)

/-- Big-endian byte serialization of `x` into `nbytes` bytes
(`to_be_bytes`). -/
def beBytes (nbytes x : Nat) : List Nat :=
  (List.range nbytes).map (fun i => (x >>> (8 * (nbytes - 1 - i))) % 256)

/-- Big-endian byte parsing (`from_be_bytes`). -/
def fromBE (l : List Nat) : Nat := l.foldl (fun acc b => acc * 256 + b) 0

/-- Little-endian byte parsing (`from_le_bytes`). -/
def fromLE (l : List Nat) : Nat := l.foldr (fun b acc => acc * 256 + b) 0

/-- Fuel-driven worker for `chunks`. -/
def chunksGo (B : Nat) : Nat → List Nat → List (List Nat)
  | 0, _ => []
  | fuel + 1, l =>
    if l.isEmpty then [] else l.take B :: chunksGo B fuel (l.drop B)

/-- Rust `slice::chunks(B)`: consecutive `B`-byte chunks, the last chunk
possibly shorter (absent for the empty slice). -/
def chunks (B : Nat) (l : List Nat) : List (List Nat) := chunksGo B l.length l

/-! ## Old-crate SHA-2 (`src/digest/sha2.rs`, `Sha32<BITS>`) -/

/-- The SHA-256 round constant table `k` of `do_sha32_block` (grouped in
eights). -/
def sha2K32 : List Nat :=
  [0x428a2f98, 0x71374491, 0xb5c0fbcf, 0xe9b5dba5, 0x3956c25b, 0x59f111f1, 0x923f82a4, 0xab1c5ed5] ++
  [0xd807aa98, 0x12835b01, 0x243185be, 0x550c7dc3, 0x72be5d74, 0x80deb1fe, 0x9bdc06a7, 0xc19bf174] ++
  [0xe49b69c1, 0xefbe4786, 0x0fc19dc6, 0x240ca1cc, 0x2de92c6f, 0x4a7484aa, 0x5cb0a9dc, 0x76f988da] ++
  [0x983e5152, 0xa831c66d, 0xb00327c8, 0xbf597fc7, 0xc6e00bf3, 0xd5a79147, 0x06ca6351, 0x14292967] ++
  [0x27b70a85, 0x2e1b2138, 0x4d2c6dfc, 0x53380d13, 0x650a7354, 0x766a0abb, 0x81c2c92e, 0x92722c85] ++
  [0xa2bfe8a1, 0xa81a664b, 0xc24b8b70, 0xc76c51a3, 0xd192e819, 0xd6990624, 0xf40e3585, 0x106aa070] ++
  [0x19a4c116, 0x1e376c08, 0x2748774c, 0x34b0bcb5, 0x391c0cb3, 0x4ed8aa4a, 0x5b9cca4f, 0x682e6ff3] ++
  [0x748f82ee, 0x78a5636f, 0x84c87814, 0x8cc70208, 0x90befffa, 0xa4506ceb, 0xbef9a3f7, 0xc67178f2]

/-- Message-schedule extension loop of `do_sha32_block` (`for i in 16..64`),
appending `count` further words to `w`. -/
def sha32Schedule (w : List Nat) : Nat → List Nat
  | 0 => w
  | count + 1 =>
    let i := w.length
    let w15 := w.getD (i - 15) 0
    let w2 := w.getD (i - 2) 0
    let s0 := rotr 32 7 w15 ^^^ rotr 32 18 w15 ^^^ (w15 >>> 3)
    let s1 := rotr 32 17 w2 ^^^ rotr 32 19 w2 ^^^ (w2 >>> 10)
    sha32Schedule
      (w ++ [(w.getD (i - 16) 0 + s0 + w.getD (i - 7) 0 + s1) % 2 ^ 32]) count

/-- One round of the `for i in 0..64` compression loop of `do_sha32_block`;
`hs = [a,b,c,d,e,f,g,l]`, `kw = (k[i], w[i])`. -/
def sha32Round (hs : List Nat) (kw : Nat × Nat) : List Nat :=
  match hs with
  | [a, b, c, d, e, f, g, l] =>
    let s1 := rotr 32 6 e ^^^ rotr 32 11 e ^^^ rotr 32 25 e
    let ch := (e &&& f) ^^^ (bnot 32 e &&& g)
    let temp1 := (l + s1 + ch + kw.1 + kw.2) % 2 ^ 32
    let s0 := rotr 32 2 a ^^^ rotr 32 13 a ^^^ rotr 32 22 a
    let maj := (a &&& b) ^^^ (a &&& c) ^^^ (b &&& c)
    let temp2 := (s0 + maj) % 2 ^ 32
    [(temp1 + temp2) % 2 ^ 32, a, b, c, (d + temp1) % 2 ^ 32, e, f, g]
  | other => other

/-- `do_sha32_block`: one SHA-256 compression of a 64-byte `block` into the
state words `h`. -/
def do_sha32_block (block : List Nat) (h : List Nat) : List Nat :=
  let w16 := (List.range 16).map (fun i => fromBE ((block.drop (4 * i)).take 4))
  let w := sha32Schedule w16 48
  let regs := (sha2K32.zip w).foldl sha32Round h
  (h.zip regs).map (fun p => (p.1 + p.2) % 2 ^ 32)

/-- State of `Sha32<BITS>`: eight 32-bit words and the bit counter `size`. -/
structure Sha32State where
  h : List Nat
  size : Nat
  deriving DecidableEq, Repr

/-- `Sha32::<256>::new()`. -/
def sha32_256_new : Sha32State :=
  { h := [0x6a09e667, 0xbb67ae85, 0x3c6ef372, 0xa54ff53a, 0x510e527f, 0x9b05688c,
          0x1f83d9ab, 0x5be0cd19],
    size := 0 }

/-- `<Sha32<BITS> as Digest>::update`.  Note the source ASSIGNS
`self.size = block.len() as u64 * 8` rather than accumulating. -/
def sha32_update (s : Sha32State) (block : List Nat) : Sha32State :=
  { h := do_sha32_block block s.h, size := (block.length * 8) % 2 ^ 64 }

/-- `<Sha32<BITS> as Digest>::do_final`: pad the trailing `lblock`, absorb,
and serialize the first `bits / 32` state words big-endian.  Returns the
final state and the output bytes. -/
def sha32_do_final (bits : Nat) (s : Sha32State) (lblock : List Nat) :
    PResult (Sha32State × List Nat) :=
  if lblock.length ≤ 64 then
    let sl := if lblock.length = 64 then (sha32_update s lblock, ([] : List Nat))
              else (s, lblock)
    let s := sl.1
    let lblock := sl.2
    let len := lblock.length
    let bytes := lblock ++ List.replicate (64 - len) 0
    let s := { s with size := (s.size + lblock.length * 8) % 2 ^ 64 }
    let ml := s.size
    let bytes := bytes.set len 0x80
    let sb := if 64 - len < 8 then (sha32_update s bytes, List.replicate 64 0)
              else (s, bytes)
    let s := sb.1
    let bytes := sb.2
    let bytes := bytes.take (64 - 8) ++ beBytes 8 ml
    let s := sha32_update s bytes
    .ok (s, ((s.h.take (bits / 32)).map (beBytes 4)).flatten)
  else .panicked

/-- The old-crate top-level driver `digest::digest` instantiated at
`Sha32<bits>` with initial state `s0`: split into 64-byte chunks, `update`
on every full chunk but the last, `do_final` on the last chunk (empty for
the empty message). -/
def sha32_digest (bits : Nat) (s0 : Sha32State) (bytes : List Nat) :
    PResult (List Nat) :=
  let cs := chunks 64 bytes
  let lst := (cs.getLast?).getD []
  let fulls := cs.dropLast
  let s := fulls.foldl sha32_update s0
  (sha32_do_final bits s lst).map (fun p => p.2)

/-! ## Old-crate SHA-1 (`src/digest/sha1.rs`) -/

/-- State of `Sha1`: five 32-bit words and the bit counter `size`. -/
structure Sha1State where
  h : List Nat
  size : Nat
  deriving DecidableEq, Repr

/-- `Sha1::new()`. -/
def sha1_new : Sha1State :=
  { h := [0x67452301, 0xEFCDAB89, 0x98BADCFE, 0x10325476, 0xC3D2E1F0], size := 0 }

/-- The classic rotate-left message expansion of `Sha1::update`
(`for i in 16..80`), appending `count` further words. -/
def sha1Schedule (w : List Nat) : Nat → List Nat
  | 0 => w
  | count + 1 =>
    let i := w.length
    sha1Schedule
      (w ++ [rotl 32 1 (w.getD (i - 3) 0 ^^^ w.getD (i - 8) 0 ^^^
                        w.getD (i - 14) 0 ^^^ w.getD (i - 16) 0)]) count

/-- The per-round `(f, k)` selection of `Sha1::update`. -/
def sha1FK (i b c d : Nat) : Nat × Nat :=
  if i ≤ 19 then ((b &&& c) ||| (bnot 32 b &&& d), 0x5A827999)
  else if i ≤ 39 then (b ^^^ c ^^^ d, 0x6ED9EBA1)
  else if i ≤ 59 then ((b &&& c) ||| (b &&& d) ||| (c &&& d), 0x8F1BBCDC)
  else (b ^^^ c ^^^ d, 0xCA62C1D6)

/-- One round of the `for i in 0..80` loop of `Sha1::update`;
`hs = [a,b,c,d,e]`, `iw = (i, words[i])`. -/
def sha1Round (hs : List Nat) (iw : Nat × Nat) : List Nat :=
  match hs with
  | [a, b, c, d, e] =>
    let fk := sha1FK iw.1 b c d
    let tmp := (rotl 32 5 a + fk.1 + e + fk.2 + iw.2) % 2 ^ 32
    [tmp, a, rotl 32 30 b, c, d]
  | other => other

/-- `<Sha1 as Digest>::update`: panics (`try_into().unwrap()`) unless the
block is exactly 64 bytes; adds 512 to the bit counter. -/
def sha1_update (s : Sha1State) (block : List Nat) : PResult Sha1State :=
  if block.length = 64 then
    let size := (s.size + 512) % 2 ^ 64
    let w16 := (List.range 16).map (fun i => fromBE ((block.drop (4 * i)).take 4))
    let words := sha1Schedule w16 64
    let regs := words.enum.foldl sha1Round s.h
    .ok { h := (s.h.zip regs).map (fun p => (p.1 + p.2) % 2 ^ 32), size := size }
  else .panicked

/-- `<Sha1 as Digest>::do_final`: same padding shape as `Sha32::do_final`;
output is the five state words big-endian (20 bytes). -/
def sha1_do_final (s : Sha1State) (lblock : List Nat) :
    PResult (Sha1State × List Nat) :=
  if lblock.length ≤ 64 then
    (if lblock.length = 64 then
        (sha1_update s lblock).map (fun s => (s, ([] : List Nat)))
      else .ok (s, lblock)).bind fun sl =>
    let s := sl.1
    let lblock := sl.2
    let len := lblock.length
    let bytes := lblock ++ List.replicate (64 - len) 0
    let s := { s with size := (s.size + lblock.length * 8) % 2 ^ 64 }
    let ml := s.size
    let bytes := bytes.set len 0x80
    (if 64 - len < 8 then
        (sha1_update s bytes).map (fun s => (s, List.replicate 64 0))
      else .ok (s, bytes)).bind fun sb =>
    let s := sb.1
    let bytes := sb.2
    let bytes := bytes.take (64 - 8) ++ beBytes 8 ml
    (sha1_update s bytes).map fun s =>
      (s, ((s.h.take 5).map (beBytes 4)).flatten)
  else .panicked

/-- The old-crate driver `digest::digest` instantiated at `Sha1`. -/
def sha1_digest (bytes : List Nat) : PResult (List Nat) :=
  let cs := chunks 64 bytes
  let lst := (cs.getLast?).getD []
  let fulls := cs.dropLast
  (fulls.foldlM sha1_update sha1_new).bind fun s =>
  (sha1_do_final s lst).map (fun p => p.2)

/-! ## Old-crate HMAC (`src/digest.rs`, `Hmac<D>` at `D = Sha1`) -/

/-- State of `Hmac<Sha1>`: the inner digest instance and the stored
block-padded key. -/
structure HmacSha1State where
  d : Sha1State
  key : List Nat
  deriving DecidableEq, Repr

/-- `Hmac::new(Sha1::new(), key)`: pad (or pre-hash) the key to the 64-byte
block size. -/
def hmac_sha1_new (key : List Nat) : PResult HmacSha1State :=
  (if key.length ≤ 64 then
      .ok (key ++ List.replicate (64 - key.length) 0)
    else
      (sha1_digest key).map (fun d => d ++ List.replicate (64 - 20) 0)).map
    fun inner_key => { d := sha1_new, key := inner_key }

/-- `<Hmac<D> as Digest>::init`: XOR the key with `ipad = 0x36`, absorb it,
then re-XOR with `0x36 ^ 0x5c` leaving the opad-masked key stored. -/
def hmac_sha1_init (h : HmacSha1State) : PResult HmacSha1State :=
  let key := h.key.map (fun b => b ^^^ 0x36)
  (sha1_update sha1_new key).map fun d =>
    { d := d, key := key.map (fun b => b ^^^ (0x36 ^^^ 0x5c)) }

/-- `<Hmac<D> as Digest>::update`. -/
def hmac_sha1_update (h : HmacSha1State) (block : List Nat) :
    PResult HmacSha1State :=
  (sha1_update h.d block).map fun d => { h with d := d }

/-- `<Hmac<D> as Digest>::do_final`: finalize the inner digest into a
`BLOCK_SIZE`-byte temporary buffer (only the first `OUTPUT_SIZE` bytes are
written), reinitialize, then absorb `key.chunks(64)` chained with
`tmp_out.chunks(64)`, finalizing on the last chunk. -/
def hmac_sha1_do_final (h : HmacSha1State) (lblock : List Nat) :
    PResult (HmacSha1State × List Nat) :=
  (sha1_do_final h.d lblock).bind fun p =>
  let tmp_out := p.2 ++ List.replicate (64 - 20) 0
  let d := sha1_new
  (sha1_update d h.key).bind fun d =>
  (sha1_do_final d tmp_out).map fun q =>
    ({ d := q.1, key := h.key.map (fun b => b ^^^ 0x5c) }, q.2)

/-- The old-crate driver `digest::digest` instantiated at `Hmac<Sha1>`. -/
def hmac_sha1_digest (key msg : List Nat) : PResult (List Nat) :=
  (hmac_sha1_new key).bind fun h =>
  (hmac_sha1_init h).bind fun h =>
  let cs := chunks 64 msg
  let lst := (cs.getLast?).getD []
  let fulls := cs.dropLast
  (fulls.foldlM hmac_sha1_update h).bind fun h =>
  (hmac_sha1_do_final h lst).map (fun p => p.2)

/-- Follows the spec's words (§4.7): identical to `hmac_sha1_do_final`
except that the temporary buffer holding the inner digest has exactly
`OUTPUT_SIZE` (= 20) bytes, so the outer pass finalizes over
`(K' XOR opad) || inner` with no trailing zeros. -/
def hmac_sha1_spec_do_final (h : HmacSha1State) (lblock : List Nat) :
    PResult (HmacSha1State × List Nat) :=
  (sha1_do_final h.d lblock).bind fun p =>
  let tmp_out := p.2
  let d := sha1_new
  (sha1_update d h.key).bind fun d =>
  (sha1_do_final d tmp_out).map fun q =>
    ({ d := q.1, key := h.key.map (fun b => b ^^^ 0x5c) }, q.2)

/-- The top-level HMAC-SHA-1 computation with the spec's outer pass. -/
def hmac_sha1_spec_digest (key msg : List Nat) : PResult (List Nat) :=
  (hmac_sha1_new key).bind fun h =>
  (hmac_sha1_init h).bind fun h =>
  let cs := chunks 64 msg
  let lst := (cs.getLast?).getD []
  let fulls := cs.dropLast
  (fulls.foldlM hmac_sha1_update h).bind fun h =>
  (hmac_sha1_spec_do_final h lst).map (fun p => p.2)

/-! ## New-crate byte-array abstraction (`lc-crypto-primitives/src/traits.rs`) -/

/-- `ByteArray::extend` for `[u8; n]`: `assert!(sl.len() <= Self::LEN)`,
zero the array, then `this.as_mut().copy_from_slice(sl)` — the copy is
into the FULL `n`-byte slice, so `copy_from_slice` panics whenever
`sl.len() != n`. -/
def byteArray_extend (n : Nat) (sl : List Nat) : PResult (List Nat) :=
  if sl.length ≤ n then
    if sl.length = n then .ok sl else .panicked
  else .panicked

/-- `ByteArray::truncate` for `[u8; n]`: asserts `n <= sl.len()` and keeps
the first `n` bytes. -/
def byteArray_truncate (n : Nat) (sl : List Nat) : PResult (List Nat) :=
  if n ≤ sl.length then .ok (sl.take n) else .panicked

/-! ## New-crate SHA-2 (`lc-crypto-digest/src/raw/sha2.rs`) -/

/-- The `Sha2Word` capability set: word width, block length, round-constant
table and the rotation/shift amounts of `sigma` (`s0`/`s1`) and `sum`
(`S0`/`S1`). -/
structure Sha2P where
  wbits : Nat
  wbytes : Nat
  blockLen : Nat
  K : List Nat
  s0r : Nat × Nat × Nat
  s1r : Nat × Nat × Nat
  S0r : Nat × Nat × Nat
  S1r : Nat × Nat × Nat

/-- `Sha2Word::sigma`: `(s0, s1)` from `w1 = w[i-15]`, `w2 = w[i-2]`. -/
def sha2_sigma (P : Sha2P) (w1 w2 : Nat) : Nat × Nat :=
  (rotr P.wbits P.s0r.1 w1 ^^^ rotr P.wbits P.s0r.2.1 w1 ^^^ (w1 >>> P.s0r.2.2),
   rotr P.wbits P.s1r.1 w2 ^^^ rotr P.wbits P.s1r.2.1 w2 ^^^ (w2 >>> P.s1r.2.2))

/-- `Sha2Word::sum`: `(S0, S1)` from `a` and `e`. -/
def sha2_sum (P : Sha2P) (a e : Nat) : Nat × Nat :=
  (rotr P.wbits P.S0r.1 a ^^^ rotr P.wbits P.S0r.2.1 a ^^^ rotr P.wbits P.S0r.2.2 a,
   rotr P.wbits P.S1r.1 e ^^^ rotr P.wbits P.S1r.2.1 e ^^^ rotr P.wbits P.S1r.2.2 e)

/-- State of `Sha2<W, BITS, O>`: eight words plus the 64-bit byte counter. -/
structure Sha2State where
  state : List Nat
  byte_count : Nat
  deriving DecidableEq, Repr

/-- One round of the interleaved expansion/compression loop of
`Sha2::raw_update`; the accumulator carries the 16-word ring `w` and the
registers `[a,b,c,d,e,f,g,h]`; `ik = (i, ROUND_CONSTANTS[i])`. -/
def sha2_round (P : Sha2P) (acc : List Nat × List Nat) (ik : Nat × Nat) :
    List Nat × List Nat :=
  let w := acc.1
  match acc.2 with
  | [a, b, c, d, e, f, g, h] =>
    let i := ik.1
    let k := ik.2
    let Ss := sha2_sum P a e
    let ch := (e &&& f) ^^^ (bnot P.wbits e &&& g)
    let temp1 := (h + Ss.2 + ch + k + w.getD (i % 16) 0) % 2 ^ P.wbits
    let maj := (a &&& b) ^^^ (a &&& c) ^^^ (b &&& c)
    let temp2 := (Ss.1 + maj) % 2 ^ P.wbits
    let ss := sha2_sigma P (w.getD ((i + 1) % 16) 0) (w.getD ((i + 14) % 16) 0)
    let w := w.set (i % 16)
      ((w.getD (i % 16) 0 + ss.1 + w.getD ((i + 9) % 16) 0 + ss.2) % 2 ^ P.wbits)
    (w, [(temp1 + temp2) % 2 ^ P.wbits, a, b, c, (d + temp1) % 2 ^ P.wbits, e, f, g])
  | other => (w, other)

/-- `Sha2::raw_update`: bump the byte counter by the block length, parse the
block as sixteen big-endian words, run the round loop, add the registers
back into the state. -/
def sha2_raw_update (P : Sha2P) (s : Sha2State) (block : List Nat) : Sha2State :=
  let byte_count := (s.byte_count + P.blockLen) % 2 ^ 64
  let w := (List.range 16).map
    (fun i => fromBE ((block.drop (P.wbytes * i)).take P.wbytes))
  let wr := (P.K.enum).foldl (sha2_round P) (w, s.state)
  { state := (s.state.zip wr.2).map (fun p => (p.1 + p.2) % 2 ^ P.wbits),
    byte_count := byte_count }

/-- `Sha2::raw_update_final`: pad the trailing `rest` bytes.  The code
calls `Self::Block::extend(rest)` (which panics unless
`rest.len() == Block::LEN`, see `byteArray_extend`), and in the
`rest.len() == Block::LEN` case builds the padding block WITHOUT ever
absorbing the data block `iblock`. -/
def sha2_raw_update_final (P : Sha2P) (s : Sha2State) (rest : List Nat) :
    PResult Sha2State :=
  let final_size := P.blockLen - (2 * P.wbytes + 1)
  let bitcount := ((s.byte_count + rest.length) * 8) % 2 ^ 64
  (if rest.length < final_size then
      (byteArray_extend P.blockLen rest).map
        (fun fb => (s, fb.set rest.length 0x80))
    else
      (byteArray_extend P.blockLen rest).map fun iblock =>
        if rest.length < P.blockLen then
          (sha2_raw_update P s (iblock.set rest.length 0x80),
           List.replicate P.blockLen 0)
        else
          (s, (List.replicate P.blockLen 0).set 0 0x80)).map
    fun sf =>
      let fblock := sf.2.take (P.blockLen - 8) ++ beBytes 8 bitcount
      sha2_raw_update P sf.1 fblock

/-- `Sha2::finish`: serialize the state big-endian, truncate to the output
length, and mask the excess high bits of the last byte. -/
def sha2_finish (P : Sha2P) (BITS : Nat) (s : Sha2State) : PResult (List Nat) :=
  let raw := (s.state.map (beBytes P.wbytes)).flatten
  let olen := (BITS + 7) / 8
  (byteArray_truncate olen raw).map fun out =>
    let tbits := olen * 8 - BITS
    let n := 0xFF >>> tbits
    out.set (olen - 1) (out.getD (olen - 1) 0 &&& n)

/-- The `u32` word parameters (SHA-224 and SHA-256). -/
def P32 : Sha2P :=
  { wbits := 32, wbytes := 4, blockLen := 64, K := sha2K32,
    s0r := (7, 18, 3), s1r := (17, 19, 10),
    S0r := (2, 13, 22), S1r := (6, 11, 25) }

/-- The SHA-512 (and SHA-384 / SHA-512/t) round constant table (grouped in
eights). -/
def sha2K64 : List Nat :=
  [0x428a2f98d728ae22, 0x7137449123ef65cd, 0xb5c0fbcfec4d3b2f, 0xe9b5dba58189dbbc,
   0x3956c25bf348b538, 0x59f111f1b605d019, 0x923f82a4af194f9b, 0xab1c5ed5da6d8118] ++
  [0xd807aa98a3030242, 0x12835b0145706fbe, 0x243185be4ee4b28c, 0x550c7dc3d5ffb4e2,
   0x72be5d74f27b896f, 0x80deb1fe3b1696b1, 0x9bdc06a725c71235, 0xc19bf174cf692694] ++
  [0xe49b69c19ef14ad2, 0xefbe4786384f25e3, 0x0fc19dc68b8cd5b5, 0x240ca1cc77ac9c65,
   0x2de92c6f592b0275, 0x4a7484aa6ea6e483, 0x5cb0a9dcbd41fbd4, 0x76f988da831153b5] ++
  [0x983e5152ee66dfab, 0xa831c66d2db43210, 0xb00327c898fb213f, 0xbf597fc7beef0ee4,
   0xc6e00bf33da88fc2, 0xd5a79147930aa725, 0x06ca6351e003826f, 0x142929670a0e6e70] ++
  [0x27b70a8546d22ffc, 0x2e1b21385c26c926, 0x4d2c6dfc5ac42aed, 0x53380d139d95b3df,
   0x650a73548baf63de, 0x766a0abb3c77b2a8, 0x81c2c92e47edaee6, 0x92722c851482353b] ++
  [0xa2bfe8a14cf10364, 0xa81a664bbc423001, 0xc24b8b70d0f89791, 0xc76c51a30654be30,
   0xd192e819d6ef5218, 0xd69906245565a910, 0xf40e35855771202a, 0x106aa07032bbd1b8] ++
  [0x19a4c116b8d2d0c8, 0x1e376c085141ab53, 0x2748774cdf8eeb99, 0x34b0bcb5e19b48a8,
   0x391c0cb3c5c95a63, 0x4ed8aa4ae3418acb, 0x5b9cca4f7763e373, 0x682e6ff3d6b2b8a3] ++
  [0x748f82ee5defb2fc, 0x78a5636f43172f60, 0x84c87814a1f0ab72, 0x8cc702081a6439ec,
   0x90befffa23631e28, 0xa4506cebde82bde9, 0xbef9a3f7b2c67915, 0xc67178f2e372532b] ++
  [0xca273eceea26619c, 0xd186b8c721c0c207, 0xeada7dd6cde0eb1e, 0xf57d4f7fee6ed178,
   0x06f067aa72176fba, 0x0a637dc5a2c898a6, 0x113f9804bef90dae, 0x1b710b35131c471b] ++
  [0x28db77f523047d84, 0x32caab7b40c72493, 0x3c9ebe0a15c9bebc, 0x431d67c49c100d4c,
   0x4cc5d4becb3e42b6, 0x597f299cfc657e2a, 0x5fcb6fab3ad6faec, 0x6c44198c4a475817]

/-- The `u64` word parameters (SHA-384, SHA-512 and SHA-512/t). -/
def P64 : Sha2P :=
  { wbits := 64, wbytes := 8, blockLen := 128, K := sha2K64,
    s0r := (1, 8, 7), s1r := (19, 61, 6),
    S0r := (28, 34, 39), S1r := (14, 18, 41) }

/-- `Sha256::new()` of the new crate (`DefaultSha2<u32>` IV for
`Sha2<u32, 256, [u8; 32]>`). -/
def sha256_new : Sha2State :=
  { state := [0x6a09e667, 0xbb67ae85, 0x3c6ef372, 0xa54ff53a, 0x510e527f,
              0x9b05688c, 0x1f83d9ab, 0x5be0cd19],
    byte_count := 0 }

/-- The new-crate top-level driver `lc_crypto_digest::digest`: `raw_update`
on every exact block (`array_chunks`), `raw_update_final` on the
remainder (always shorter than a block), then `finish`. -/
def digest_new (P : Sha2P) (BITS : Nat) (s0 : Sha2State) (bytes : List Nat) :
    PResult (List Nat) :=
  let remLen := bytes.length % P.blockLen
  let fulls := chunks P.blockLen (bytes.take (bytes.length - remLen))
  let rem := bytes.drop (bytes.length - remLen)
  let s := fulls.foldl (sha2_raw_update P) s0
  (sha2_raw_update_final P s rem).bind (sha2_finish P BITS)

/-! ## SHA-512/t IV derivation (`Sha2::new_512_t`, `Sha512::new_modified`) -/

/-- `Sha512::new_modified()`: the SHA-512 IV with every word XORed with
`0xa5a5a5a5a5a5a5a5`. -/
def sha512_modified_new : Sha2State :=
  { state := [
      0x6a09e667f3bcc908 ^^^ 0xa5a5a5a5a5a5a5a5,
      0xbb67ae8584caa73b ^^^ 0xa5a5a5a5a5a5a5a5,
      0x3c6ef372fe94f82b ^^^ 0xa5a5a5a5a5a5a5a5,
      0xa54ff53a5f1d36f1 ^^^ 0xa5a5a5a5a5a5a5a5,
      0x510e527fade682d1 ^^^ 0xa5a5a5a5a5a5a5a5,
      0x9b05688c2b3e6c1f ^^^ 0xa5a5a5a5a5a5a5a5,
      0x1f83d9abfb41bd6b ^^^ 0xa5a5a5a5a5a5a5a5,
      0x5be0cd19137e2179 ^^^ 0xa5a5a5a5a5a5a5a5],
    byte_count := 0 }

/-- The message buffer `buf[..len]` built by `Sha2::new_512_t`: starts as
`"SHA-512/\0\0\0"`, computes ASCII digits `n0`, `n1`, `n2` (the source
computes `n2` with the same expression as `n1`), and copies
`[n2, n1, n0].into_iter().skip_while(|v| (*v) != 0)` into `buf[8..]` —
since every digit is at least `0x30`, `skip_while` drops them all. -/
def sha512t_msg (t : Nat) : List Nat :=
  let n0 := t % 10 + 0x30
  let n1 := t / 10 % 10 + 0x30
  let n2 := t / 10 % 10 + 0x30
  let written := (List.dropWhile (fun v => v ≠ 0) [n2, n1, n0]).take 3
  [0x53, 0x48, 0x41, 0x2d, 0x35, 0x31, 0x32, 0x2f] ++ written

/-- `Sha2::<u64, N, O>::new_512_t` up to the derived IV bytes:
`modified.raw_update_final(&buf[..len])` followed by `modified.finish()`. -/
def sha512t_run (t : Nat) : PResult (List Nat) :=
  (sha2_raw_update_final P64 sha512_modified_new (sha512t_msg t)).bind
    (sha2_finish P64 512)

/-! ## SHA-256 by the spec's words (§4.5 padding), for comparison -/

/-- Follows the spec's words: append `0x80`, then `0x00` bytes, then the
8-byte big-endian bit length, so the total padded length is a multiple of
the 64-byte block size (a second block exactly when fewer than 9 bytes
remain free after the tail). -/
def sha256_spec_pad (msg : List Nat) : List Nat :=
  msg ++ [0x80] ++ List.replicate ((119 - msg.length % 64) % 64) 0 ++
    beBytes 8 (msg.length * 8)

/-- SHA-256 per the spec's words: compress every block of the padded
message (the compression function is the one the source implements) and
serialize the state big-endian. -/
def sha256_spec (msg : List Nat) : List Nat :=
  let h := (chunks 64 (sha256_spec_pad msg)).foldl
    (fun h b => do_sha32_block b h) sha32_256_new.h
  (h.map (beBytes 4)).flatten

/-! ## Keccak / SHA-3 (`src/digest/raw/sha3.rs`) -/

/-- Read lane `(i, j)` of a 5x5 state. -/
def lane (arr : List (List Nat)) (i j : Nat) : Nat := (arr.getD i []).getD j 0

/-- Write lane `(i, j)` of a 5x5 state. -/
def setLane (arr : List (List Nat)) (i j v : Nat) : List (List Nat) :=
  arr.set i ((arr.getD i []).set j v)

/-- `permute_theta` as the source writes it: for each column `j`, the
correction `p` is the XOR-fold over the five rows of
`v[(j+4) % 5] & v[(j+1) % 5].rotate_left(1)` (note the `&`), XORed into
every lane of column `j`. -/
def permute_theta (arr : List (List Nat)) : List (List Nat) :=
  (List.range 5).foldl
    (fun ret j =>
      let p := (arr.map
        (fun v => v.getD ((j + 4) % 5) 0 &&& rotl 64 1 (v.getD ((j + 1) % 5) 0))).foldl
        (fun a b => a ^^^ b) 0
      (List.range 5).foldl (fun ret i => setLane ret i j (lane ret i j ^^^ p)) ret)
    arr

/-- Follows the spec's words (§4.6 θ): `P[c]` is the parity (XOR) of the
five lanes of column `c`, and each lane of column `j` is XORed with
`P[(j+4) % 5] XOR rotl1(P[(j+1) % 5])`. -/
def theta_fips (arr : List (List Nat)) : List (List Nat) :=
  let par := fun c => (arr.map (fun v => v.getD (c % 5) 0)).foldl (fun a b => a ^^^ b) 0
  (List.range 5).map (fun i =>
    (List.range 5).map (fun j =>
      lane arr i j ^^^ (par ((j + 4) % 5) ^^^ rotl 64 1 (par ((j + 1) % 5)))))

/-- The rotation-offset table `TBL` of `permute_rho`. -/
def rhoTBL : List (List Nat) := [
  [0, 36, 3, 105, 210],
  [1, 300, 10, 45, 66],
  [190, 6, 171, 15, 253],
  [28, 55, 153, 21, 120],
  [91, 276, 231, 136, 78]]

/-- `permute_rho`: rotate each lane left by `TBL[i][j] & 63`. -/
def permute_rho (arr : List (List Nat)) : List (List Nat) :=
  (List.range 5).map (fun i =>
    (List.range 5).map (fun j =>
      rotl 64 (lane rhoTBL i j &&& 63) (lane arr i j)))

/-- `permute_pi`: starting from a zeroed state, set
`ret[(3i + 2j) % 5][i] = arr[i][j]`. -/
def permute_pi (arr : List (List Nat)) : List (List Nat) :=
  (List.range 5).foldl
    (fun ret i =>
      (List.range 5).foldl
        (fun ret j => setLane ret ((3 * i + 2 * j) % 5) i (lane arr i j)) ret)
    (List.replicate 5 (List.replicate 5 0))

/-- `permute_chi` as the source writes it: updates `ret` in place, so later
columns of a row read already-updated values. -/
def permute_chi (arr : List (List Nat)) : List (List Nat) :=
  (List.range 5).foldl
    (fun ret i =>
      (List.range 5).foldl
        (fun ret j =>
          setLane ret i j
            (lane ret i j ^^^ (bnot 64 (lane ret i ((j + 1) % 5)) &&&
              lane ret i ((j + 2) % 5)))) ret)
    arr

/-- `update_lfsr`: one step of the degree-8 LFSR over `u8`. -/
def update_lfsr (n : Nat) : Nat :=
  let b := n >>> 7
  let n := (n <<< 1) % 256
  n ^^^ (b ||| (b <<< 4) ||| (b <<< 5) ||| (b <<< 6))

/-- Iterate a function `n` times. -/
def iterN {α : Type} (f : α → α) : Nat → α → α
  | 0, x => x
  | n + 1, x => iterN f n (f x)

/-- `rc_word::<u64>`: sample the LFSR at bit positions `(1 << i) - 1` for
`i in 0..=6`, with the stream restarting at period 255. -/
def rc_word (n : Nat) : Nat :=
  let r := (7 * n) % 255
  let lfsr := iterN update_lfsr r 1
  let step := fun (acc : Nat × Nat × Nat) (i : Nat) =>
    let word := acc.1
    let lfsr := acc.2.1
    let r := acc.2.2
    let word := word ||| ((lfsr &&& 1) <<< (2 ^ i - 1))
    let r := r + 1
    if r = 255 then (word, 1, 0) else (word, update_lfsr lfsr, r)
  ((List.range 7).foldl step (0, lfsr, r)).1

/-- `permute_iota`: XOR the round constant into lane `(0, 0)`. -/
def permute_iota (arr : List (List Nat)) (r : Nat) : List (List Nat) :=
  setLane arr 0 0 (lane arr 0 0 ^^^ rc_word r)

/-- `permute_round`: ι ∘ χ ∘ π ∘ ρ ∘ θ. -/
def permute_round (arr : List (List Nat)) (r : Nat) : List (List Nat) :=
  permute_iota (permute_chi (permute_pi (permute_rho (permute_theta arr)))) r

/-- `Keccack::permute_state` with 24 rounds. -/
def permute_state (arr : List (List Nat)) : List (List Nat) :=
  (List.range 24).foldl permute_round arr

/-- `Keccack::raw_update` for `u64` lanes: zero-pad the rate block to the
200 state bytes, XOR lane `(i, j)` with the little-endian word at byte
offset `40 i + 8 j`, then permute. -/
def keccak_raw_update (s : List (List Nat)) (block : List Nat) :
    List (List Nat) :=
  let bytes := block ++ List.replicate (200 - block.length) 0
  let s := (List.range 5).foldl
    (fun s i =>
      (List.range 5).foldl
        (fun s j =>
          setLane s i j
            (lane s i j ^^^ fromLE ((bytes.drop (40 * i + 8 * j)).take 8))) s)
    s
  permute_state s

/-- `Keccack::<S>::new()`: the all-zero 5x5 state. -/
def keccak_new : List (List Nat) := List.replicate 5 (List.replicate 5 0)

/-- The `KeccackSpec` constants produced by the `sha3!` macro (identical
for SHA-3-224, -256, -384 and -512): `PREPAD_BITS = 0b10`,
`PREPAD_LENGTH = 2`. -/
def sha3_prepad_bits : Nat := 0b10

/-- `PREPAD_LENGTH` of the `sha3!` macro expansion. -/
def sha3_prepad_length : Nat := 2

/-- `BaseArrayVec::<A>::from_slice`: asserts `sl.len() <= A::LEN`. -/
def arrayVec_from_slice (cap : Nat) (sl : List Nat) : PResult (List Nat) :=
  if sl.length ≤ cap then .ok sl else .panicked

/-- `BaseArrayVec::push`: panics when the vector is full. -/
def arrayVec_push (cap : Nat) (v : List Nat) (b : Nat) : PResult (List Nat) :=
  if v.length = cap then .panicked else .ok (v ++ [b])

/-- `BaseArrayVec::into_inner`: zero-pad to capacity. -/
def arrayVec_into_inner (cap : Nat) (v : List Nat) : List Nat :=
  v ++ List.replicate (cap - v.length) 0

/-- `pad_sha3::<S>` with rate `rate` and prepad constants `pb` / `pl`:
collect the tail into a rate-capacity vector, push the byte
`PREPAD_BITS | (1u8.unbounded_shl(PREPAD_LENGTH))`, zero-pad to the rate,
and OR `0x80` into the last byte.  (The `const` assertion
`PREPAD_LENGTH < 7` holds for every instantiation modelled here.) -/
def pad_sha3 (rate pb pl : Nat) (rest : List Nat) : PResult (List Nat) :=
  (arrayVec_from_slice rate rest).bind fun block =>
  (arrayVec_push rate block (pb ||| ((1 <<< pl) % 256))).map fun block =>
  let block := arrayVec_into_inner rate block
  block.set (rate - 1) (block.getD (rate - 1) 0 ||| 0x80)

/-- `Keccack::raw_update_final`: pad then absorb.  Instantiated below at
the SHA-3-256 rate of 136 bytes. -/
def keccak_raw_update_final (rate pb pl : Nat) (s : List (List Nat))
    (rest : List Nat) : PResult (List (List Nat)) :=
  (pad_sha3 rate pb pl rest).map (keccak_raw_update s)

/-! ## Hardened primitives (`src/asm.rs`, `lc-crypto-primitives/src/cmp`) -/

/-- The portable fallback of `eq_bytes_secure_impl`: fold a byte-wise
"unequal anywhere" accumulator with bitwise OR over every position, then
return its negation. -/
def eq_bytes_secure_impl (a b : List Nat) : Bool :=
  ((a.zip b).foldl
    (fun r p => r ||| (if p.1 ≠ p.2 then 1 else 0)) 0) == 0

/-- Result type of `checked_bytes_eq_secure` (`Result<bool, BadLengthError>`). -/
inductive CmpResult where
  | ok (b : Bool)
  | badLength
  deriving DecidableEq, Repr

/-- `checked_bytes_eq_secure`: error on mismatched lengths, otherwise the
constant-time equality verdict. -/
def checked_bytes_eq_secure (a b : List Nat) : CmpResult :=
  if a.length ≠ b.length then .badLength else .ok (eq_bytes_secure_impl a b)

/-- The portable fallback of `write_bytes_explicit(a, val, len)` as the
source writes it: the loop stores `len` (as a byte) at every position —
`a.add(i).write_volatile(len)` — instead of `val`. -/
def write_bytes_explicit (mem : List Nat) (val len : Nat) : List Nat :=
  (List.range mem.length).map
    (fun i => if i < len then len % 256 else mem.getD i 0)

/-- `impl Drop for Secret<T>` via `Secret::write_bytes(0)`: calls
`write_bytes_explicit(ptr, 0, size_of_val(self))` over the payload. -/
def secret_drop (payload : List Nat) : List Nat :=
  write_bytes_explicit payload 0 payload.length

/-! ## Concrete inputs used by the claim theorems -/

/-- The ASCII bytes of `"The quick brown fox jumps over the lazy dog"`. -/
def msgQuickFox : List Nat :=
  [0x54, 0x68, 0x65, 0x20, 0x71, 0x75, 0x69, 0x63, 0x6b, 0x20, 0x62, 0x72,
   0x6f, 0x77, 0x6e, 0x20, 0x66, 0x6f, 0x78, 0x20, 0x6a, 0x75, 0x6d, 0x70,
   0x73, 0x20, 0x6f, 0x76, 0x65, 0x72, 0x20, 0x74, 0x68, 0x65, 0x20, 0x6c,
   0x61, 0x7a, 0x79, 0x20, 0x64, 0x6f, 0x67]

/-- The ASCII bytes of `"key"`. -/
def keyBytes : List Nat := [0x6b, 0x65, 0x79]

/-- The NIST value of HMAC-SHA-1("key", quick-fox). -/
def hmacExpected : List Nat :=
  [0xde, 0x7c, 0x9b, 0x85, 0xb8, 0xb7, 0x8a, 0xa6, 0xbc, 0x8a, 0x7a, 0x36,
   0xf7, 0x0a, 0x90, 0x70, 0x1c, 0x9d, 0xb4, 0xd9]

/-! ## Claim theorems -/

/-- C1: hashing the empty input with SHA-256 through the top-level digest
driver is claimed to return `e3b0...b855`.  The new-crate driver instead
panics inside `ByteArray::extend` (the `copy_from_slice` length mismatch
on the empty remainder); the old-crate `Sha32` pipeline, also cited by the
claim, does return exactly the claimed 32 bytes, confirming the intended
value. -/
theorem C1_sha256_empty :
    digest_new P32 256 sha256_new [] = .panicked ∧
    sha32_digest 256 sha32_256_new [] =
      .ok [0xe3, 0xb0, 0xc4, 0x42, 0x98, 0xfc, 0x1c, 0x14, 0x9a, 0xfb, 0xf4,
           0xc8, 0x99, 0x6f, 0xb9, 0x24, 0x27, 0xae, 0x41, 0xe4, 0x64, 0x9b,
           0x93, 0x4c, 0xa4, 0x95, 0x99, 0x1b, 0x78, 0x52, 0xb8, 0x55] := by
  decide

/-- C2: `ByteArray::extend(sl)` on `[u8; N]` is claimed to return, without
panicking, `sl` zero-extended to `N` bytes whenever `sl.len() <= N`.  At
`N = 4`, `sl = [0xAB]` the code panics (`copy_from_slice` is applied to
the full 4-byte destination) instead of returning `[0xAB, 0, 0, 0]`. -/
theorem C2_extend_panics :
    byteArray_extend 4 [0xAB] ≠ .ok [0xAB, 0, 0, 0] ∧
    byteArray_extend 4 [0xAB] = .panicked := by
  decide

/-- C3: the claimed SHA-2 padding layout fails on the code three ways:
`raw_update_final` on an empty tail panics (so no `0x80`/length encoding
happens at all); on a full 64-byte tail the data block is discarded, so
two different full tails produce identical states; and the old-crate
`Sha32::do_final` at a 56-byte tail overwrites the `0x80` byte with the
length field, so its digest differs from the spec's padding. -/
theorem C3_sha2_padding :
    sha2_raw_update_final P32 sha256_new [] = .panicked ∧
    sha2_raw_update_final P32 sha256_new (List.replicate 64 0xAA) =
      sha2_raw_update_final P32 sha256_new (List.replicate 64 0xBB) ∧
    sha32_digest 256 sha32_256_new (List.replicate 56 0x61) ≠
      .ok (sha256_spec (List.replicate 56 0x61)) := by
  decide

/-- C4: the total-length counter is claimed to increase by exactly the
block length per full-block update for every digest in the family.
`Sha32::update` ASSIGNS `size = block_bits`, so after two 64-byte updates
the counter is 512 rather than the claimed 1024; `Sha1::update` and the
new-crate `Sha2::raw_update` do accumulate (1024 bits, 128 bytes). -/
theorem C4_counter_increment :
    (sha32_update (sha32_update sha32_256_new (List.replicate 64 0))
        (List.replicate 64 1)).size = 512 ∧
    (sha32_update (sha32_update sha32_256_new (List.replicate 64 0))
        (List.replicate 64 1)).size ≠ 1024 ∧
    ((sha1_update sha1_new (List.replicate 64 0)).bind
        (fun s => sha1_update s (List.replicate 64 1))).map Sha1State.size =
      .ok 1024 ∧
    (sha2_raw_update P32 (sha2_raw_update P32 sha256_new (List.replicate 64 0))
        (List.replicate 64 1)).byte_count = 128 := by
  decide

/-- C5: θ is claimed to XOR each lane of column `j` with
`P[(j-1) mod 5] XOR rotl1(P[(j+1) mod 5])` where `P` is the column parity.
The source combines the neighbour columns with `&` per row instead, so on
the all-ones state `permute_theta` returns the all-zero state while the
spec's θ returns the all-ones state. -/
theorem C5_theta_divergence :
    permute_theta (List.replicate 5 (List.replicate 5 (2 ^ 64 - 1))) =
      List.replicate 5 (List.replicate 5 0) ∧
    theta_fips (List.replicate 5 (List.replicate 5 (2 ^ 64 - 1))) =
      List.replicate 5 (List.replicate 5 (2 ^ 64 - 1)) ∧
    List.replicate 5 (List.replicate 5 (0 : Nat)) ≠
      List.replicate 5 (List.replicate 5 (2 ^ 64 - 1)) := by
  decide

/-- C6 counterexample: the claim states `PREPAD_BITS = 0b01` for the SHA-3
fixed-output parameterizations; the `sha3!` macro defines `0b10`. -/
theorem C6_counterexample : sha3_prepad_bits ≠ 0b01 := by decide

/-- C7 counterexample: at `t = 100` the constructor hashes the 8 bytes
`"SHA-512/"` (the `skip_while(|v| *v != 0)` filter drops every ASCII
digit), not `"SHA-512/100"`; the modified IV XORs with
`0xa5a5a5a5a5a5a5a5`, not with `0x5a5a5a5a5a5a5a5a` as claimed; and the
derivation panics before producing any IV. -/
theorem C7_counterexample :
    sha512t_msg 100 = [0x53, 0x48, 0x41, 0x2d, 0x35, 0x31, 0x32, 0x2f] ∧
    sha512t_msg 100 ≠
      [0x53, 0x48, 0x41, 0x2d, 0x35, 0x31, 0x32, 0x2f, 0x31, 0x30, 0x30] ∧
    sha512_modified_new.state.getD 0 0 ≠
      0x6a09e667f3bcc908 ^^^ 0x5a5a5a5a5a5a5a5a ∧
    sha512t_run 100 = .panicked := by
  decide

/-- C8: HMAC-SHA-1 with key `"key"` over the quick-fox message is claimed
(and the repository's own test expects) to be `de7c...b4d9`, with the
outer pass absorbing exactly the 20-byte inner digest.  The code's outer
pass absorbs a 64-byte buffer (inner digest plus 44 zero bytes), yielding
`43598785be84e482778d8252b244c2bb842c7906` instead; restoring the spec's
outer pass yields the expected value. -/
theorem C8_hmac_sha1 :
    hmac_sha1_digest keyBytes msgQuickFox ≠ .ok hmacExpected ∧
    hmac_sha1_digest keyBytes msgQuickFox =
      .ok [0x43, 0x59, 0x87, 0x85, 0xbe, 0x84, 0xe4, 0x82, 0x77, 0x8d, 0x82,
           0x52, 0xb2, 0x44, 0xc2, 0xbb, 0x84, 0x2c, 0x79, 0x06] ∧
    hmac_sha1_spec_digest keyBytes msgQuickFox = .ok hmacExpected := by
  decide

/-- C9: dropping a `Secret<T>` is claimed to zero every payload byte.  The
portable `write_bytes_explicit` fallback writes the byte `len` instead of
`val = 0`, so dropping a 4-byte payload leaves `[4, 4, 4, 4]`, not
zeros. -/
theorem C9_secret_drop :
    secret_drop [0xde, 0xad, 0xbe, 0xef] = [4, 4, 4, 4] ∧
    secret_drop [0xde, 0xad, 0xbe, 0xef] ≠ List.replicate 4 0 := by
  decide

/-- The rate in bytes of the `sha3!` macro expansion for `OUT_BITS`
output bits: `(1600 - 2 * OUT_BITS) / 8`. -/
def sha3_rate (outBits : Nat) : Nat := (1600 - 2 * outBits) / 8

/-- The padded block layout of the amended claim C6 at rate `rate`: the
tail, then the pad byte `0x06`, zero bytes up to the rate length, with
bit 7 of the last byte set. -/
def sha3PadLayout (rate : Nat) (rest : List Nat) : List Nat :=
  let b := rest ++ 0x06 :: List.replicate (rate - 1 - rest.length) 0
  b.set (rate - 1) (b.getD (rate - 1) 0 ||| 0x80)

/-- C6 (amended): for the SHA-3 fixed-output parameterizations,
`PREPAD_BITS = 0b10` (not `0b01`) with `PREPAD_LENGTH = 2`, so the pushed
pad byte is `0b10 | (1 << 2) = 0x06`; at every rate — in particular the
144, 136, 104 and 72 bytes of SHA-3-224, -256, -384 and -512 — `raw_update_final`
on a tail shorter than the rate pushes that byte after the tail, zero-pads
the block to the rate length, sets bit 7 of the last byte, and absorbs the
block. -/
theorem C6_sha3_prepad (rate : Nat) (s : List (List Nat)) (rest : List Nat)
    (h : rest.length < rate) :
    sha3_prepad_bits = 0b10 ∧ sha3_prepad_length = 2 ∧
    sha3_prepad_bits ||| ((1 <<< sha3_prepad_length) % 256) = 0x06 ∧
    sha3_rate 224 = 144 ∧ sha3_rate 256 = 136 ∧
    sha3_rate 384 = 104 ∧ sha3_rate 512 = 72 ∧
    keccak_raw_update_final rate sha3_prepad_bits sha3_prepad_length s rest =
      .ok (keccak_raw_update s (sha3PadLayout rate rest)) := by
  refine ⟨rfl, rfl, by decide, by decide, by decide, by decide, by decide, ?_⟩
  have h1 : rest.length ≤ rate := Nat.le_of_lt h
  have h2 : ¬ rest.length = rate := Nat.ne_of_lt h
  have hb : sha3_prepad_bits ||| ((1 <<< sha3_prepad_length) % 256) = 0x06 := by
    decide
  have hrep : rate - (rest.length + 1) = rate - 1 - rest.length := by omega
  unfold keccak_raw_update_final pad_sha3 arrayVec_from_slice arrayVec_push
    arrayVec_into_inner sha3PadLayout
  simp only [h1, if_true, h2, if_false, ite_true, ite_false, hb,
    PResult.bind, PResult.map, List.length_append, List.length_cons,
    List.length_nil, List.append_assoc, List.cons_append, List.nil_append,
    hrep]

/-- Witness for C6: the theorem applied at the all-zero state and the
one-byte tail `[0xAB]`, at each of the four SHA-3 fixed-output rates
(144, 136, 104 and 72 bytes). -/
theorem C6_sha3_prepad_witness :
    (([0xAB] : List Nat).length < 144 ∧
      keccak_raw_update_final 144 sha3_prepad_bits sha3_prepad_length
          keccak_new [0xAB] =
        .ok (keccak_raw_update keccak_new (sha3PadLayout 144 [0xAB]))) ∧
    (([0xAB] : List Nat).length < 136 ∧
      keccak_raw_update_final 136 sha3_prepad_bits sha3_prepad_length
          keccak_new [0xAB] =
        .ok (keccak_raw_update keccak_new (sha3PadLayout 136 [0xAB]))) ∧
    (([0xAB] : List Nat).length < 104 ∧
      keccak_raw_update_final 104 sha3_prepad_bits sha3_prepad_length
          keccak_new [0xAB] =
        .ok (keccak_raw_update keccak_new (sha3PadLayout 104 [0xAB]))) ∧
    (([0xAB] : List Nat).length < 72 ∧
      keccak_raw_update_final 72 sha3_prepad_bits sha3_prepad_length
          keccak_new [0xAB] =
        .ok (keccak_raw_update keccak_new (sha3PadLayout 72 [0xAB]))) :=
  ⟨⟨by decide, (C6_sha3_prepad 144 keccak_new [0xAB] (by decide)).2.2.2.2.2.2.2⟩,
   ⟨by decide, (C6_sha3_prepad 136 keccak_new [0xAB] (by decide)).2.2.2.2.2.2.2⟩,
   ⟨by decide, (C6_sha3_prepad 104 keccak_new [0xAB] (by decide)).2.2.2.2.2.2.2⟩,
   ⟨by decide, (C6_sha3_prepad 72 keccak_new [0xAB] (by decide)).2.2.2.2.2.2.2⟩⟩

/-- C7 (amended): for every `t`, the SHA-512/t constructor starts from the
SHA-512 IV with every word XORed with `0xa5a5a5a5a5a5a5a5` (not
`0x5a5a...`), builds exactly the 8-byte ASCII message `"SHA-512/"` (the
`skip_while(|v| *v != 0)` filter drops every decimal digit), and then
panics inside `raw_update_final` (`ByteArray::extend` rejects the 8-byte
tail), so no derived IV is ever produced. -/
theorem C7_new_512_t (t : Nat) :
    sha512_modified_new.state =
      [0x6a09e667f3bcc908, 0xbb67ae8584caa73b, 0x3c6ef372fe94f82b,
       0xa54ff53a5f1d36f1, 0x510e527fade682d1, 0x9b05688c2b3e6c1f,
       0x1f83d9abfb41bd6b, 0x5be0cd19137e2179].map
        (fun w => w ^^^ 0xa5a5a5a5a5a5a5a5) ∧
    sha512t_msg t = [0x53, 0x48, 0x41, 0x2d, 0x35, 0x31, 0x32, 0x2f] ∧
    sha512t_run t = .panicked := by
  have h0 : (t % 10 + 0x30 : Nat) ≠ 0 := by omega
  have h1 : (t / 10 % 10 + 0x30 : Nat) ≠ 0 := by omega
  have hmsg : sha512t_msg t = [0x53, 0x48, 0x41, 0x2d, 0x35, 0x31, 0x32, 0x2f] := by
    unfold sha512t_msg
    simp [List.dropWhile, h0, h1]
  refine ⟨by decide, hmsg, ?_⟩
  unfold sha512t_run
  rw [hmsg]
  decide

/-- Bitwise-or of naturals vanishes exactly when both sides do. -/
theorem nat_lor_eq_zero {a b : Nat} : a ||| b = 0 ↔ a = 0 ∧ b = 0 := by
  constructor
  · intro h
    constructor
    · apply Nat.eq_of_testBit_eq
      intro i
      have h2 := congrArg (fun x => Nat.testBit x i) h
      simp only [Nat.testBit_or, Nat.zero_testBit, Bool.or_eq_false_iff] at h2
      simp [h2.1]
    · apply Nat.eq_of_testBit_eq
      intro i
      have h2 := congrArg (fun x => Nat.testBit x i) h
      simp only [Nat.testBit_or, Nat.zero_testBit, Bool.or_eq_false_iff] at h2
      simp [h2.2]
  · rintro ⟨rfl, rfl⟩
    rfl

/-- The accumulator of `eq_bytes_secure_impl` vanishes exactly when it
started at zero and every zipped byte pair agrees. -/
theorem eqfold_eq_zero (l : List (Nat × Nat)) (r : Nat) :
    l.foldl (fun r p => r ||| (if p.1 ≠ p.2 then 1 else 0)) r = 0 ↔
      r = 0 ∧ ∀ p ∈ l, p.1 = p.2 := by
  induction l generalizing r with
  | nil => simp
  | cons p l ih =>
    simp only [List.foldl_cons, ih, List.mem_cons, nat_lor_eq_zero]
    constructor
    · rintro ⟨⟨hr, hx⟩, h2⟩
      refine ⟨hr, ?_⟩
      rintro q (rfl | hq)
      · by_contra hne
        simp [hne] at hx
      · exact h2 q hq
    · rintro ⟨hr, h2⟩
      refine ⟨⟨hr, ?_⟩, fun q hq => h2 q (Or.inr hq)⟩
      simp [h2 p (Or.inl rfl)]

/-- Under equal lengths, agreement of every zipped pair is list equality. -/
theorem zip_forall_eq : ∀ (a b : List Nat), a.length = b.length →
    ((∀ p ∈ a.zip b, p.1 = p.2) ↔ a = b)
  | [], [], _ => by simp
  | [], _ :: _, h => by simp at h
  | _ :: _, [], h => by simp at h
  | x :: a, y :: b, h => by
    have ih := zip_forall_eq a b (by simpa using h)
    simp only [List.zip_cons_cons, List.mem_cons, List.cons.injEq]
    constructor
    · intro hp
      refine ⟨hp (x, y) (Or.inl rfl), ih.mp fun q hq => hp q (Or.inr hq)⟩
    · rintro ⟨rfl, hab⟩
      rintro q (rfl | hq)
      · rfl
      · exact (ih.mpr hab) q hq

/-- C10: `checked_bytes_eq_secure` fails with the bad-length error exactly
when the lengths differ, and otherwise returns `Ok(true)` exactly when the
two byte sequences are equal (the portable `eq_bytes_secure_impl`
fallback reads every position and ORs the mismatches together). -/
theorem C10_checked_bytes_eq (a b : List Nat) :
    (checked_bytes_eq_secure a b = .badLength ↔ a.length ≠ b.length) ∧
    (checked_bytes_eq_secure a b = .ok true ↔ a = b) := by
  by_cases h : a.length = b.length
  · refine ⟨by simp [checked_bytes_eq_secure, h], ?_⟩
    have himpl : eq_bytes_secure_impl a b = true ↔ a = b := by
      unfold eq_bytes_secure_impl
      rw [beq_iff_eq, eqfold_eq_zero]
      constructor
      · intro hh
        exact (zip_forall_eq a b h).mp hh.2
      · intro hab
        exact ⟨rfl, (zip_forall_eq a b h).mpr hab⟩
    simp only [checked_bytes_eq_secure, h, ne_eq, not_true_eq_false, if_false,
      ite_false]
    constructor
    · intro hok
      exact himpl.mp (by injection hok)
    · intro hab
      rw [himpl.mpr hab]
  · constructor
    · simp [checked_bytes_eq_secure, h]
    · constructor
      · intro hok
        simp [checked_bytes_eq_secure, h] at hok
      · intro hab
        exact absurd (congrArg List.length hab) h

end LcCrypto
